import Mathlib

/-!
Verification of the handoff endpoint and chat-widget wrapper.

This file gives a shallow embedding, in Lean 4, of the two source files of
the repository:

* the API route (splitName, callSharpSpring, syncLeadToSharpSpring, POST),
  where the outbound fetches (webhook and CRM) are abstracted by oracles
  describing the outcome the network produced, and
* the client panel (the record_fact tool handler with its dedup set,
  extractErrorDetail, getClientSecret).

JavaScript strings are modelled as Lean String values operated on at the
level of their character lists; JSON values parsed by JSON.parse are
modelled by the inductive JsonVal; property access, optional chaining and
truthiness are modelled by getField, jsOptChain and jsTruthy respectively.
-/

/-- The result of JSON.parse: null, booleans, numbers (integral values
suffice for every claim under study), strings, arrays and objects. -/
inductive JsonVal where
  | null
  | bool (b : Bool)
  | num (n : Int)
  | str (s : String)
  | arr (elems : List JsonVal)
  | obj (fields : List (String × JsonVal))

/-- JavaScript property access v.k for a parsed JSON value: defined keys of
plain objects are found, every other access yields undefined (none). -/
def JsonVal.getField : JsonVal → String → Option JsonVal
  | JsonVal.obj fs, k => fs.lookup k
  | _, _ => none

/-- JavaScript truthiness of a parsed JSON value. -/
def jsTruthy : JsonVal → Bool
  | JsonVal.null => false
  | JsonVal.bool b => b
  | JsonVal.num n => n != 0
  | JsonVal.str s => s != ""
  | JsonVal.arr _ => true
  | JsonVal.obj _ => true

/-- Optional chaining v?.k where v may itself be undefined (none) or null. -/
def jsOptChain (v : Option JsonVal) (k : String) : Option JsonVal :=
  match v with
  | none => none
  | some JsonVal.null => none
  | some j => j.getField k

/-- The character class of the JavaScript regular expression \s (WhiteSpace
and LineTerminator code points), as used by trim and by split. -/
def isJsSpace (c : Char) : Bool :=
  c = ' ' || c = '\t' || c = '\n' || c = '\r' || c = '\x0b' || c = '\x0c' ||
  c = '\u00A0' || c = '\u1680' || ('\u2000' ≤ c && c ≤ '\u200A') ||
  c = '\u2028' || c = '\u2029' || c = '\u202F' || c = '\u205F' ||
  c = '\u3000' || c = '\uFEFF'

/-- JavaScript String.prototype.trim: strip \s characters from both ends. -/
def jsTrim (s : String) : String :=
  String.mk (((s.data.dropWhile isJsSpace).reverse.dropWhile isJsSpace).reverse)

/-- Worker for splitting on runs of whitespace.  The accumulator holds the
characters of the current piece in reverse; the flag records whether the
previous character belonged to a whitespace run. -/
def splitWsGo : List Char → List Char → Bool → List (List Char)
  | [], acc, _ => [acc.reverse]
  | c :: rest, acc, inRun =>
    if isJsSpace c then
      (if inRun then [] else [acc.reverse]) ++ splitWsGo rest [] true
    else
      splitWsGo rest (c :: acc) false

/-- JavaScript s.split on the regular expression of one-or-more \s:
pieces between maximal whitespace runs, keeping empty boundary pieces. -/
def jsSplitWs (s : String) : List String :=
  (splitWsGo s.data [] false).map String.mk

/-- Characters of a list of pieces joined by single spaces. -/
def joinSpaceChars : List (List Char) → List Char
  | [] => []
  | [t] => t
  | t :: rest => t ++ ' ' :: joinSpaceChars rest

/-- JavaScript Array.prototype.join with separator a single space. -/
def jsJoin (xs : List String) : String :=
  String.mk (joinSpaceChars (xs.map String.data))

/-- Worker for collapsing whitespace runs: the flag records whether the
previous character belonged to a whitespace run already replaced. -/
def collapseWsGo : List Char → Bool → List Char
  | [], _ => []
  | c :: rest, inRun =>
    if isJsSpace c then
      (if inRun then [] else [' ']) ++ collapseWsGo rest true
    else
      c :: collapseWsGo rest false

/-- JavaScript s.replace of every maximal \s run by a single space. -/
def jsCollapseWs (s : String) : String :=
  String.mk (collapseWsGo s.data false)

/-- Result shape of splitName: an object with optional firstName and
lastName properties. -/
structure NameParts where
  firstName : Option String
  lastName : Option String
deriving DecidableEq

/-- splitName from the API route: falsy input gives the empty object; a
single token becomes firstName; otherwise the last token becomes lastName
and the remaining tokens joined by spaces become firstName. -/
def splitName (fullName : Option String) : NameParts :=
  match fullName with
  | none => ⟨none, none⟩
  | some s =>
    if s = "" then ⟨none, none⟩
    else
      let parts := jsSplitWs (jsTrim s)
      if parts.length = 1 then ⟨some (parts.headD ""), none⟩
      else ⟨some (jsJoin parts.dropLast), some (parts.getLastD "")⟩

/-- The parsed request body of the handoff route (HandoffBody in the
source); string-or-null-or-undefined fields collapse to Option String,
which preserves every truthiness distinction the route makes. -/
structure HandoffBody where
  type : Option String
  name : Option String
  email : Option String
  phone : Option String
  company : Option String
  message : Option String
  transcript : Option String
deriving DecidableEq

/-- The environment variables the route reads. -/
structure Env where
  slackWebhookUrl : Option String
  sharpspringAccountId : Option String
  sharpspringSecretKey : Option String
deriving DecidableEq

/-- Falsiness of an environment string: unset (undefined) or empty. -/
def strFalsy : Option String → Bool
  | none => true
  | some s => s = ""

/-- The params object of each SharpSpring JSON-RPC call site. -/
inductive CrmParams where
  | getLeads (whereEmail : String) (limit : Nat) (offset : Nat)
  | updateLeads (objects : List (List (String × String)))
  | createLeads (objects : List (List (String × String)))
deriving DecidableEq

/-- One outbound SharpSpring request: the method, params and id fields of
the JSON envelope posted to the CRM endpoint. -/
structure CrmCall where
  method : String
  params : CrmParams
  requestId : String
deriving DecidableEq

/-- What the network produced for one CRM fetch: the fetch rejected, the
response text was empty, the text failed to parse as JSON, or it parsed. -/
inductive CrmFetchResult where
  | netError
  | emptyBody
  | parseError
  | parsed (j : JsonVal)

/-- The outcomes the network would produce for each of the up to three CRM
fetches one syncLeadToSharpSpring run can issue. -/
structure CrmNet where
  getResp : CrmFetchResult
  updateResp : CrmFetchResult
  createResp : CrmFetchResult

/-- callSharpSpring: with a missing account id or secret key it skips the
request and yields null; otherwise it performs the request (recorded in the
second component) and yields the parsed JSON, or null on a network error,
an empty body or a parse failure.  It never throws. -/
def callSharpSpring (env : Env) (method : String) (params : CrmParams)
    (requestId : String) (outcome : CrmFetchResult) :
    Option JsonVal × List CrmCall :=
  if strFalsy env.sharpspringAccountId || strFalsy env.sharpspringSecretKey then
    (none, [])
  else
    match outcome with
    | CrmFetchResult.netError => (none, [⟨method, params, requestId⟩])
    | CrmFetchResult.emptyBody => (none, [⟨method, params, requestId⟩])
    | CrmFetchResult.parseError => (none, [⟨method, params, requestId⟩])
    | CrmFetchResult.parsed j => (some j, [⟨method, params, requestId⟩])

/-- The firstName entry of the lead field map: included only when splitName
produced a truthy (nonempty) firstName. -/
def firstNameField (np : NameParts) : List (String × String) :=
  match np.firstName with
  | some f => if f = "" then [] else [("firstName", f)]
  | none => []

/-- The lastName entry of the lead field map: included only when splitName
produced a truthy (nonempty) lastName. -/
def lastNameField (np : NameParts) : List (String × String) :=
  match np.lastName with
  | some l => if l = "" then [] else [("lastName", l)]
  | none => []

/-- The companyName entry: included only when body.company is truthy and
trims to a nonempty string, holding the trimmed value. -/
def companyField (body : HandoffBody) : List (String × String) :=
  match body.company with
  | some c => if c = "" then [] else if jsTrim c = "" then [] else [("companyName", jsTrim c)]
  | none => []

/-- The phoneNumber entry: included only when body.phone is truthy and
trims to a nonempty string, holding the trimmed value. -/
def phoneField (body : HandoffBody) : List (String × String) :=
  match body.phone with
  | some p => if p = "" then [] else if jsTrim p = "" then [] else [("phoneNumber", jsTrim p)]
  | none => []

/-- The description entry: included only when body.message is truthy and
trims to a nonempty string, holding the trimmed value. -/
def messageField (body : HandoffBody) : List (String × String) :=
  match body.message with
  | some m => if m = "" then [] else if jsTrim m = "" then [] else [("description", jsTrim m)]
  | none => []

/-- The lead field map built by syncLeadToSharpSpring, in source insertion
order: emailAddress always, then the conditional entries. -/
def buildLeadFields (body : HandoffBody) (email : String) : List (String × String) :=
  [("emailAddress", email)]
    ++ firstNameField (splitName body.name)
    ++ lastNameField (splitName body.name)
    ++ companyField body
    ++ phoneField body
    ++ messageField body

/-- Extraction of the existing lead's identifier from the getLeads
response (the narrowing steps of the source): result via optional
chaining, then lead defaulted to an empty array when nullish, then the
first element when the value is a nonempty array, then its id when the
element is a non-null object and the id is a string or a number.  A
numeric id is converted by String, rendered here by Int.toString, which
agrees with the JavaScript rendering on the safe-integer range the model
covers.  The final falsiness guard mirrors the source: a converted id
that is the empty string is discarded with a warning, so the caller falls
through to createLeads. -/
def existingLeadId (getResponse : Option JsonVal) : Option String :=
  let result := jsOptChain getResponse "result"
  let existingLeads : JsonVal :=
    match jsOptChain result "lead" with
    | some JsonVal.null => JsonVal.arr []
    | some j => j
    | none => JsonVal.arr []
  let existingLead : Option JsonVal :=
    match existingLeads with
    | JsonVal.arr (x :: _) => some x
    | _ => none
  match existingLead with
  | some (JsonVal.obj fs) =>
    let id : Option String :=
      (match fs.lookup "id" with
       | some (JsonVal.str s) => some s
       | some (JsonVal.num n) => some (toString n)
       | _ => none)
    (match id with
     | some s => if s = "" then none else some s
     | none => none)
  | _ => none

/-- Truthiness test of resp?.result, deciding the boolean returned after an
updateLeads or createLeads call. -/
def crmResultTruthy (resp : Option JsonVal) : Bool :=
  match jsOptChain resp "result" with
  | some j => jsTruthy j
  | none => false

/-- syncLeadToSharpSpring: without a trimmed nonempty email it does
nothing; otherwise it builds the lead field map, looks the lead up by
email, and either updates the existing lead (id prepended to the field
map) or creates a new one.  The second component is the list of CRM
requests actually sent over the network. -/
def syncLeadToSharpSpring (env : Env) (net : CrmNet) (body : HandoffBody) :
    Bool × List CrmCall :=
  match body.email with
  | none => (false, [])
  | some e0 =>
    if jsTrim e0 = "" then (false, [])
    else
      let email := jsTrim e0
      let leadFields := buildLeadFields body email
      let getR := callSharpSpring env "getLeads"
        (CrmParams.getLeads email 1 0) "getLeadByEmail" net.getResp
      match existingLeadId getR.1 with
      | some id =>
        let upR := callSharpSpring env "updateLeads"
          (CrmParams.updateLeads [("id", id) :: leadFields]) "updateLead" net.updateResp
        (crmResultTruthy upR.1, getR.2 ++ upR.2)
      | none =>
        let crR := callSharpSpring env "createLeads"
          (CrmParams.createLeads [leadFields]) "createLead" net.createResp
        (crmResultTruthy crR.1, getR.2 ++ crR.2)

/-- The JSON body of the route's response: the success shape or the error
shape. -/
inductive RespBody where
  | okBody (ticketId : String) (slackTs : Option String) (crmSynced : Bool)
  | errBody (error : String)
deriving DecidableEq

/-- A response of the route: status, JSON body, and the response headers the
handler attaches beyond the JSON content type (the source attaches none). -/
structure ApiResponse where
  status : Nat
  body : RespBody
  headers : List (String × String)
deriving DecidableEq

/-- Whether a response carries an Access-Control-Allow-Origin header. -/
def hasCorsHeaders (r : ApiResponse) : Bool :=
  r.headers.any (fun kv => kv.1 = "Access-Control-Allow-Origin")

/-- The ticketId of a success response. -/
def respTicketId : ApiResponse → Option String
  | ⟨_, RespBody.okBody t _ _, _⟩ => some t
  | _ => none

/-- The slackTs of a success response. -/
def respSlackTs : ApiResponse → Option String
  | ⟨_, RespBody.okBody _ ts _, _⟩ => ts
  | _ => none

/-- The crmSynced flag of a success response. -/
def respCrmSynced : ApiResponse → Option Bool
  | ⟨_, RespBody.okBody _ _ c, _⟩ => some c
  | _ => none

/-- The resolved webhook response: the value slackResp.json() produced, or
none when that promise rejected (the catch substitutes null). -/
structure SlackWebhookResult where
  jsonValue : Option JsonVal

/-- Everything one POST invocation consumes besides the environment: the
outcome of parsing the request body (none when req.json() threw), the
string Math.random().toString(36) produced, the webhook fetch outcome
(none when the fetch rejected), and the CRM network outcomes. -/
structure PostInput where
  parsedBody : Option HandoffBody
  randString : String
  slackFetch : Option SlackWebhookResult
  crmNet : CrmNet

/-- Ticket id generation: substring(2, 10) of the random base-36 string,
uppercased.  JavaScript substring and toUpperCase act on the code units,
modelled here on the character list. -/
def generateTicketId (randString : String) : String :=
  String.mk (((randString.data.drop 2).take 8).map Char.toUpper)

/-- slackTs extraction from the resolved webhook JSON: only a truthy
parsed value whose ts property is a string yields a timestamp. -/
def slackTsFrom (jsonValue : Option JsonVal) : Option String :=
  match jsonValue with
  | some j =>
    if jsTruthy j then
      (match j.getField "ts" with
       | some (JsonVal.str s) => some s
       | _ => none)
    else none
  | none => none

/-- The POST handler: a parse failure of the inbound body or a rejected
webhook fetch hits the outer catch (generic 500); a falsy webhook URL gives
the dedicated 500; otherwise the handler resolves slackTs from the webhook
response (string ts only), runs the CRM sync whose boolean is crmSynced,
and answers 200.  The formatted notification text only feeds the webhook
fetch, which the oracle abstracts. -/
def POST (env : Env) (inp : PostInput) : ApiResponse :=
  match inp.parsedBody with
  | none => ⟨500, RespBody.errBody "Failed to send handoff", []⟩
  | some body =>
    if strFalsy env.slackWebhookUrl then
      ⟨500, RespBody.errBody "Missing SLACK_WEBHOOK_URL env variable", []⟩
    else
      let ticketId := generateTicketId inp.randString
      match inp.slackFetch with
      | none => ⟨500, RespBody.errBody "Failed to send handoff", []⟩
      | some slackResp =>
        let slackTs := slackTsFrom slackResp.jsonValue
        let crmSynced := (syncLeadToSharpSpring env inp.crmNet body).1
        ⟨200, RespBody.okBody ticketId slackTs crmSynced, []⟩

/-- The action forwarded to the hosting page by the record_fact handler. -/
structure FactAction where
  type : String
  factId : String
  factText : String
deriving DecidableEq

/-- The mutable state of the panel relevant to fact recording: the
processedFacts dedup set, kept as a list of identifiers. -/
structure PanelState where
  processedFacts : List String
deriving DecidableEq

/-- The onThreadChange handler: it clears the processedFacts set. -/
def onThreadChange (_st : PanelState) : PanelState := ⟨[]⟩

/-- The outcome of one record_fact invocation: the state afterwards, the
success flag reported to the widget, and the action forwarded to the page
(none when nothing was forwarded). -/
structure RecordFactOutcome where
  state : PanelState
  success : Bool
  forwarded : Option FactAction
deriving DecidableEq

/-- The record_fact branch of onClientTool: falsy parameters default to the
empty string; a falsy or already-processed id reports success without
forwarding; otherwise the id is added to the set and the fact is forwarded
with its text whitespace-collapsed and trimmed. -/
def handleRecordFact (st : PanelState) (factId factText : Option String) :
    RecordFactOutcome :=
  let id := match factId with
    | some s => if s = "" then "" else s
    | none => ""
  let text := match factText with
    | some s => if s = "" then "" else s
    | none => ""
  if id = "" || st.processedFacts.contains id then
    ⟨st, true, none⟩
  else
    ⟨⟨id :: st.processedFacts⟩, true,
      some ⟨"save", id, jsTrim (jsCollapseWs text)⟩⟩

/-- The object-with-string-message narrowing used twice by
extractErrorDetail: a non-null object value whose message property is a
string. -/
def objStrMessage : Option JsonVal → Option String
  | some (JsonVal.obj fs) =>
    (match fs.lookup "message" with
     | some (JsonVal.str m) => some m
     | _ => none)
  | _ => none

/-- The checks applied to the top-level error property: a string is taken
as is, otherwise an object with a string message yields that message. -/
def errorFieldDetail (v : Option JsonVal) : Option String :=
  match v with
  | some (JsonVal.str s) => some s
  | other => objStrMessage other

/-- The checks applied to the details property: a string is taken as is;
an object is probed for a nested error that is a string or an object with
a string message. -/
def detailsFieldDetail (v : Option JsonVal) : Option String :=
  match v with
  | some (JsonVal.str s) => some s
  | some (JsonVal.obj fs) =>
    (match fs.lookup "error" with
     | some (JsonVal.str s) => some s
     | nested => objStrMessage nested)
  | _ => none

/-- extractErrorDetail: a missing or falsy payload yields the fallback;
otherwise the payload is probed in order - error as string, error.message,
details as string, details.error, details.error.message, message - and the
first hit is returned, the fallback closing the cascade. -/
def extractErrorDetail (payload : Option JsonVal) (fallback : String) : String :=
  match payload with
  | none => fallback
  | some p =>
    if jsTruthy p = false then fallback
    else
      match errorFieldDetail (p.getField "error") with
      | some s => s
      | none =>
        match detailsFieldDetail (p.getField "details") with
        | some s => s
        | none =>
          match p.getField "message" with
          | some (JsonVal.str m) => m
          | _ => fallback

/-- One session-creation response: ok status flag, statusText, and the
outcome of JSON.parse on the raw text (none when parsing threw, in which
case data keeps its initial empty-object value). -/
structure SessionResponse where
  ok : Bool
  statusText : String
  bodyJson : Option JsonVal

/-- The session fetch outcome: the fetch rejected with an error carrying a
message, or a response arrived. -/
inductive SessionFetch where
  | netError (msg : String)
  | resp (r : SessionResponse)

/-- getClientSecret reduced to its data flow: an unconfigured workflow
fails fast; a non-ok response throws the extractErrorDetail message with
statusText (or a generic fallback) as the default; an ok response must
carry a string client_secret.  Reading client_secret from a body that
parsed to JSON null throws a TypeError whose engine-supplied message is
the nullReadMsg parameter; the catch block re-throws every error with the
same message, so the Except value carries exactly the thrown message. -/
def getClientSecret (isWorkflowConfigured : Bool) (nullReadMsg : String)
    (f : SessionFetch) : Except String String :=
  if isWorkflowConfigured = false then
    Except.error "Set NEXT_PUBLIC_CHATKIT_WORKFLOW_ID."
  else
    match f with
    | SessionFetch.netError msg => Except.error msg
    | SessionFetch.resp r =>
      let data : JsonVal :=
        match r.bodyJson with
        | some j => j
        | none => JsonVal.obj []
      if r.ok = false then
        Except.error (extractErrorDetail (some data)
          (if r.statusText = "" then "Session error" else r.statusText))
      else
        match data with
        | JsonVal.null => Except.error nullReadMsg
        | _ =>
          match data.getField "client_secret" with
          | some (JsonVal.str s) => Except.ok s
          | _ => Except.error "Missing client_secret in response"

/-- The 36 lowercase base-36 digit characters Number.prototype.toString
with radix 36 can emit. -/
def base36Chars : List Char :=
  (List.range 10).map (fun i => Char.ofNat ('0'.toNat + i)) ++
    (List.range 26).map (fun i => Char.ofNat ('a'.toNat + i))

/-- Uppercase alphanumeric characters: decimal digits and capital
letters. -/
def isUpperAlnum (c : Char) : Bool :=
  ('0' ≤ c && c ≤ '9') || ('A' ≤ c && c ≤ 'Z')

theorem stringMk_data (s : String) : String.mk s.data = s := rfl

theorem string_ne_empty_of_data {s : String} (h : s.data ≠ []) : s ≠ "" := by
  intro hs
  rw [hs] at h
  exact h rfl

theorem splitWsGo_append_nonspace (t : List Char) :
    ∀ (acc rest : List Char), (∀ c ∈ t, isJsSpace c = false) →
    splitWsGo (t ++ rest) acc false = splitWsGo rest (t.reverse ++ acc) false := by
  induction t with
  | nil => intro acc rest _; simp
  | cons c t ih =>
    intro acc rest h
    have hc : isJsSpace c = false := h c (by simp)
    simp only [List.cons_append, splitWsGo, hc, Bool.false_eq_true, if_false, List.append_eq]
    rw [ih (c :: acc) rest (fun x hx => h x (by simp [hx]))]
    simp

theorem splitWsGo_true_of_head_nonspace (cs acc : List Char)
    (h : ∃ c z, cs = c :: z ∧ isJsSpace c = false) :
    splitWsGo cs acc true = splitWsGo cs acc false := by
  obtain ⟨c, z, rfl, hc⟩ := h
  simp [splitWsGo, hc]

theorem joinSp_cons_head (c0 : Char) (tk : List Char) (rest : List (List Char)) :
    ∃ z, joinSpaceChars ((c0 :: tk) :: rest) = c0 :: z := by
  cases rest with
  | nil => exact ⟨tk, rfl⟩
  | cons r rs => exact ⟨tk ++ ' ' :: joinSpaceChars (r :: rs), rfl⟩

theorem joinSp_ne_nil (tk : List Char) (rest : List (List Char)) (h : tk ≠ []) :
    joinSpaceChars (tk :: rest) ≠ [] := by
  obtain ⟨c, z, rfl⟩ : ∃ c z, tk = c :: z := by
    cases tk with
    | nil => exact absurd rfl h
    | cons a b => exact ⟨a, b, rfl⟩
  obtain ⟨w, hw⟩ := joinSp_cons_head c z rest
  simp [hw]

theorem splitWsGo_joinSp :
    ∀ (toks : List (List Char)) (t acc : List Char),
    (∀ c ∈ t, isJsSpace c = false) →
    (∀ tk ∈ toks, tk ≠ [] ∧ ∀ c ∈ tk, isJsSpace c = false) →
    splitWsGo (joinSpaceChars (t :: toks)) acc false = (acc.reverse ++ t) :: toks := by
  intro toks
  induction toks with
  | nil =>
    intro t acc ht _
    have h1 := splitWsGo_append_nonspace t acc [] ht
    rw [List.append_nil] at h1
    simp only [joinSpaceChars, h1, splitWsGo]
    simp
  | cons tk rest ih =>
    intro t acc ht hall
    have htk := hall tk (by simp)
    have hrest : ∀ x ∈ rest, x ≠ [] ∧ ∀ c ∈ x, isJsSpace c = false :=
      fun x hx => hall x (by simp [hx])
    have hJ : joinSpaceChars (t :: tk :: rest) = t ++ ' ' :: joinSpaceChars (tk :: rest) := rfl
    rw [hJ, splitWsGo_append_nonspace t acc _ ht]
    have hsp : isJsSpace ' ' = true := by decide
    simp only [splitWsGo, hsp, if_true, Bool.false_eq_true, if_false, List.nil_append]
    obtain ⟨c0, tk', rfl⟩ : ∃ c0 tk', tk = c0 :: tk' := by
      cases tk with
      | nil => exact absurd rfl htk.1
      | cons a b => exact ⟨a, b, rfl⟩
    obtain ⟨z, hz⟩ := joinSp_cons_head c0 tk' rest
    rw [hz, splitWsGo_true_of_head_nonspace _ _ ⟨c0, z, rfl, htk.2 c0 (by simp)⟩, ← hz,
      ih (c0 :: tk') [] htk.2 hrest]
    simp

theorem map_mk_data : ∀ (l : List String), (l.map String.data).map String.mk = l := by
  intro l
  induction l with
  | nil => rfl
  | cons t r ih => simp [ih]

theorem jsSplitWs_jsJoin (t : String) (rest : List String)
    (hall : ∀ tk ∈ t :: rest, tk.data ≠ [] ∧ ∀ c ∈ tk.data, isJsSpace c = false) :
    jsSplitWs (jsJoin (t :: rest)) = t :: rest := by
  have ht := hall t (by simp)
  have hrest : ∀ x ∈ rest.map String.data, x ≠ [] ∧ ∀ c ∈ x, isJsSpace c = false := by
    intro x hx
    obtain ⟨y, hy, rfl⟩ := List.mem_map.mp hx
    exact hall y (by simp [hy])
  have hgo := splitWsGo_joinSp (rest.map String.data) t.data [] ht.2 hrest
  show (splitWsGo (jsJoin (t :: rest)).data [] false).map String.mk = t :: rest
  have hdata : (jsJoin (t :: rest)).data = joinSpaceChars (t.data :: rest.map String.data) := rfl
  rw [hdata, hgo]
  simp only [List.reverse_nil, List.nil_append, List.map_cons, stringMk_data]
  rw [map_mk_data]

theorem getLast?_append_right (l1 l2 : List Char) (h : l2 ≠ []) :
    (l1 ++ l2).getLast? = l2.getLast? := by
  induction l1 with
  | nil => rfl
  | cons a l ih =>
    have hne : l ++ l2 ≠ [] := by
      intro hx
      rcases List.append_eq_nil.mp hx with ⟨_, h2⟩
      exact h h2
    cases hx : l ++ l2 with
    | nil => exact absurd hx hne
    | cons x xs =>
      rw [List.cons_append, hx, List.getLast?_cons_cons, ← hx, ih]

theorem joinSp_getLast?_nonspace :
    ∀ (toks : List (List Char)), toks ≠ [] →
    (∀ tk ∈ toks, tk ≠ [] ∧ ∀ c ∈ tk, isJsSpace c = false) →
    ∃ d, (joinSpaceChars toks).getLast? = some d ∧ isJsSpace d = false := by
  intro toks
  induction toks with
  | nil => intro h _; exact absurd rfl h
  | cons tk rest ih =>
    intro _ hall
    have htk := hall tk (by simp)
    cases rest with
    | nil =>
      refine ⟨tk.getLast htk.1, ?_, htk.2 _ (List.getLast_mem htk.1)⟩
      show tk.getLast? = some _
      exact List.getLast?_eq_getLast tk htk.1
    | cons r rs =>
      obtain ⟨d, hd, hdns⟩ := ih (by simp) (fun x hx => hall x (by simp [hx]))
      refine ⟨d, ?_, hdns⟩
      have hne : joinSpaceChars (r :: rs) ≠ [] := joinSp_ne_nil r rs (hall r (by simp)).1
      show (tk ++ ' ' :: joinSpaceChars (r :: rs)).getLast? = some d
      rw [getLast?_append_right tk _ (by simp),
        show (' ' :: joinSpaceChars (r :: rs)) = [' '] ++ joinSpaceChars (r :: rs) from rfl,
        getLast?_append_right [' '] _ hne]
      exact hd

theorem jsTrim_eq_self (s : String)
    (h1 : ∃ c z, s.data = c :: z ∧ isJsSpace c = false)
    (h2 : ∃ d, s.data.getLast? = some d ∧ isJsSpace d = false) :
    jsTrim s = s := by
  obtain ⟨c, z, hcz, hc⟩ := h1
  obtain ⟨d, hd, hdns⟩ := h2
  show String.mk (((s.data.dropWhile isJsSpace).reverse.dropWhile isJsSpace).reverse) = s
  rw [hcz, List.dropWhile_cons]
  simp only [hc, Bool.false_eq_true, if_false]
  have hrev : (c :: z).reverse.head? = some d := by
    rw [List.head?_reverse, ← hcz]
    exact hd
  obtain ⟨w, hw⟩ : ∃ w, (c :: z).reverse = d :: w := by
    cases hre : (c :: z).reverse with
    | nil => rw [hre] at hrev; cases hrev
    | cons a b =>
      rw [hre] at hrev
      cases hrev
      exact ⟨b, rfl⟩
  rw [hw, List.dropWhile_cons]
  simp only [hdns, Bool.false_eq_true, if_false]
  rw [← hw, List.reverse_reverse, ← hcz, stringMk_data]

/-- C7: splitName maps the documented examples as stated, and in general
every name whose trimmed whitespace-split has two or more tokens -
whatever the separating whitespace or boundary whitespace - yields the
last token as lastName and the remaining tokens joined by single spaces
as firstName; an undefined name yields the empty object.  The final
clause adds the split-join round trip: well-formed token lists joined by
single spaces split back to themselves. -/
theorem splitName_examples_and_general :
    splitName (some "Ada") = ⟨some "Ada", none⟩ ∧
    splitName (some "Ada Lovelace") = ⟨some "Ada", some "Lovelace"⟩ ∧
    splitName (some "Grace Brewster Murray Hopper") =
      ⟨some "Grace Brewster Murray", some "Hopper"⟩ ∧
    splitName none = ⟨none, none⟩ ∧
    splitName (some "Ada\tLovelace") = ⟨some "Ada", some "Lovelace"⟩ ∧
    splitName (some " Ada  Lovelace ") = ⟨some "Ada", some "Lovelace"⟩ ∧
    (∀ (s : String) (parts : List String), s ≠ "" →
      jsSplitWs (jsTrim s) = parts → 2 ≤ parts.length →
      splitName (some s) =
        ⟨some (jsJoin parts.dropLast), some (parts.getLastD "")⟩) ∧
    (∀ (toks : List String), 2 ≤ toks.length →
      (∀ tk ∈ toks, tk.data ≠ [] ∧ ∀ c ∈ tk.data, isJsSpace c = false) →
      splitName (some (jsJoin toks)) =
        ⟨some (jsJoin toks.dropLast), some (toks.getLastD "")⟩) := by
  have hgen : ∀ (s : String) (parts : List String), s ≠ "" →
      jsSplitWs (jsTrim s) = parts → 2 ≤ parts.length →
      splitName (some s) =
        ⟨some (jsJoin parts.dropLast), some (parts.getLastD "")⟩ := by
    intro s parts hne hsplit hlen
    have hstep : splitName (some s) =
        (if s = "" then (⟨none, none⟩ : NameParts)
         else
           let ps := jsSplitWs (jsTrim s)
           if ps.length = 1 then ⟨some (ps.headD ""), none⟩
           else ⟨some (jsJoin ps.dropLast), some (ps.getLastD "")⟩) := rfl
    rw [hstep, if_neg hne]
    simp only [hsplit]
    have hlen1 : parts.length ≠ 1 := by omega
    rw [if_neg hlen1]
  refine ⟨by decide, by decide, by decide, rfl, by decide, by decide, hgen, ?_⟩
  intro toks hlen hall
  cases toks with
  | nil => simp at hlen
  | cons t rest =>
    have ht := hall t (by simp)
    have hne : (jsJoin (t :: rest)).data ≠ [] := by
      show joinSpaceChars (t.data :: rest.map String.data) ≠ []
      exact joinSp_ne_nil t.data (rest.map String.data) ht.1
    have hsne : jsJoin (t :: rest) ≠ "" := string_ne_empty_of_data hne
    have halls : ∀ tk ∈ (t.data :: rest.map String.data),
        tk ≠ [] ∧ ∀ c ∈ tk, isJsSpace c = false := by
      intro x hx
      rcases List.mem_cons.mp hx with h | h
      · subst h; exact ht
      · obtain ⟨y, hy, rfl⟩ := List.mem_map.mp h
        exact hall y (by simp [hy])
    have htrim : jsTrim (jsJoin (t :: rest)) = jsJoin (t :: rest) := by
      apply jsTrim_eq_self
      · obtain ⟨c, z, hcz⟩ : ∃ c z, t.data = c :: z := by
          cases hh : t.data with
          | nil => exact absurd hh ht.1
          | cons a b => exact ⟨a, b, rfl⟩
        obtain ⟨w, hw⟩ := joinSp_cons_head c z (rest.map String.data)
        refine ⟨c, w, ?_, ht.2 c (by rw [hcz]; simp)⟩
        show joinSpaceChars (t.data :: rest.map String.data) = c :: w
        rw [hcz, hw]
      · obtain ⟨d, hd, hdns⟩ := joinSp_getLast?_nonspace
          (t.data :: rest.map String.data) (by simp) halls
        exact ⟨d, hd, hdns⟩
    have hsplit : jsSplitWs (jsTrim (jsJoin (t :: rest))) = t :: rest := by
      rw [htrim]
      exact jsSplitWs_jsJoin t rest hall
    exact hgen (jsJoin (t :: rest)) (t :: rest) hsne hsplit hlen

/-- Witness instantiating the general clause of C7 at a tab-separated
name. -/
theorem splitName_examples_and_general_witness :
    splitName (some "Ada\tLovelace") =
      ⟨some (jsJoin ["Ada", "Lovelace"].dropLast),
        some (["Ada", "Lovelace"].getLastD "")⟩ :=
  splitName_examples_and_general.2.2.2.2.2.2.1 "Ada\tLovelace"
    ["Ada", "Lovelace"] (by decide) (by decide) (by decide)

theorem jsTrim_empty_of_all_space {s : String} (h : ∀ c ∈ s.data, isJsSpace c = true) :
    jsTrim s = "" := by
  have hdrop : s.data.dropWhile isJsSpace = [] := List.dropWhile_eq_nil_iff.mpr h
  show String.mk (((s.data.dropWhile isJsSpace).reverse.dropWhile isJsSpace).reverse) = ""
  rw [hdrop]
  rfl

theorem mem_firstNameField {np : NameParts} {kv : String × String}
    (h : kv ∈ firstNameField np) :
    kv.1 = "firstName" ∧ np.firstName = some kv.2 ∧ kv.2 ≠ "" := by
  cases hf : np.firstName with
  | none => simp [firstNameField, hf] at h
  | some f =>
    by_cases hf0 : f = ""
    · simp [firstNameField, hf, hf0] at h
    · simp only [firstNameField, hf, if_neg hf0, List.mem_singleton] at h
      subst h
      exact ⟨rfl, rfl, hf0⟩

theorem firstNameField_eq_of {np : NameParts} {v : String}
    (h : np.firstName = some v) (hv : v ≠ "") :
    firstNameField np = [("firstName", v)] := by
  simp [firstNameField, h, hv]

theorem firstNameField_eq_nil_of_none {np : NameParts} (h : np.firstName = none) :
    firstNameField np = [] := by
  simp [firstNameField, h]

theorem firstNameField_eq_nil_of_empty {np : NameParts} (h : np.firstName = some "") :
    firstNameField np = [] := by
  simp [firstNameField, h]

theorem mem_lastNameField {np : NameParts} {kv : String × String}
    (h : kv ∈ lastNameField np) :
    kv.1 = "lastName" ∧ np.lastName = some kv.2 ∧ kv.2 ≠ "" := by
  cases hf : np.lastName with
  | none => simp [lastNameField, hf] at h
  | some f =>
    by_cases hf0 : f = ""
    · simp [lastNameField, hf, hf0] at h
    · simp only [lastNameField, hf, if_neg hf0, List.mem_singleton] at h
      subst h
      exact ⟨rfl, rfl, hf0⟩

theorem lastNameField_eq_of {np : NameParts} {v : String}
    (h : np.lastName = some v) (hv : v ≠ "") :
    lastNameField np = [("lastName", v)] := by
  simp [lastNameField, h, hv]

theorem lastNameField_eq_nil_of_none {np : NameParts} (h : np.lastName = none) :
    lastNameField np = [] := by
  simp [lastNameField, h]

theorem jsTrim_ne_empty_imp {c : String} (hc : jsTrim c ≠ "") : c ≠ "" := by
  intro h
  subst h
  exact hc rfl

theorem mem_companyField {body : HandoffBody} {kv : String × String}
    (h : kv ∈ companyField body) :
    kv.1 = "companyName" ∧ ∃ c, body.company = some c ∧ jsTrim c ≠ "" ∧ kv.2 = jsTrim c := by
  cases hf : body.company with
  | none => simp [companyField, hf] at h
  | some c =>
    by_cases hc0 : c = ""
    · simp [companyField, hf, hc0] at h
    · by_cases hc1 : jsTrim c = ""
      · simp [companyField, hf, hc0, hc1] at h
      · simp only [companyField, hf, if_neg hc0, if_neg hc1, List.mem_singleton] at h
        subst h
        exact ⟨rfl, c, rfl, hc1, rfl⟩

theorem companyField_eq_of {body : HandoffBody} {c : String}
    (h : body.company = some c) (hc : jsTrim c ≠ "") :
    companyField body = [("companyName", jsTrim c)] := by
  simp [companyField, h, hc, jsTrim_ne_empty_imp hc]

theorem mem_phoneField {body : HandoffBody} {kv : String × String}
    (h : kv ∈ phoneField body) :
    kv.1 = "phoneNumber" ∧ ∃ p, body.phone = some p ∧ jsTrim p ≠ "" ∧ kv.2 = jsTrim p := by
  cases hf : body.phone with
  | none => simp [phoneField, hf] at h
  | some p =>
    by_cases hp0 : p = ""
    · simp [phoneField, hf, hp0] at h
    · by_cases hp1 : jsTrim p = ""
      · simp [phoneField, hf, hp0, hp1] at h
      · simp only [phoneField, hf, if_neg hp0, if_neg hp1, List.mem_singleton] at h
        subst h
        exact ⟨rfl, p, rfl, hp1, rfl⟩

theorem phoneField_eq_of {body : HandoffBody} {p : String}
    (h : body.phone = some p) (hp : jsTrim p ≠ "") :
    phoneField body = [("phoneNumber", jsTrim p)] := by
  simp [phoneField, h, hp, jsTrim_ne_empty_imp hp]

theorem mem_messageField {body : HandoffBody} {kv : String × String}
    (h : kv ∈ messageField body) :
    kv.1 = "description" ∧ ∃ m, body.message = some m ∧ jsTrim m ≠ "" ∧ kv.2 = jsTrim m := by
  cases hf : body.message with
  | none => simp [messageField, hf] at h
  | some m =>
    by_cases hm0 : m = ""
    · simp [messageField, hf, hm0] at h
    · by_cases hm1 : jsTrim m = ""
      · simp [messageField, hf, hm0, hm1] at h
      · simp only [messageField, hf, if_neg hm0, if_neg hm1, List.mem_singleton] at h
        subst h
        exact ⟨rfl, m, rfl, hm1, rfl⟩

theorem messageField_eq_of {body : HandoffBody} {m : String}
    (h : body.message = some m) (hm : jsTrim m ≠ "") :
    messageField body = [("description", jsTrim m)] := by
  simp [messageField, h, hm, jsTrim_ne_empty_imp hm]

theorem mem_buildLeadFields {body : HandoffBody} {em : String} {kv : String × String} :
    kv ∈ buildLeadFields body em ↔
      kv = ("emailAddress", em) ∨ kv ∈ firstNameField (splitName body.name) ∨
      kv ∈ lastNameField (splitName body.name) ∨ kv ∈ companyField body ∨
      kv ∈ phoneField body ∨ kv ∈ messageField body := by
  unfold buildLeadFields
  simp [List.mem_append, or_assoc]

theorem buildLeadFields_values_nonempty (body : HandoffBody) (em : String)
    (hem : em ≠ "") : ∀ kv ∈ buildLeadFields body em, kv.2 ≠ "" := by
  intro kv hkv
  rcases mem_buildLeadFields.mp hkv with h | h | h | h | h | h
  · rw [h]; exact hem
  · exact (mem_firstNameField h).2.2
  · exact (mem_lastNameField h).2.2
  · obtain ⟨-, c, -, hc, hv⟩ := mem_companyField h
    rw [hv]; exact hc
  · obtain ⟨-, p, -, hp, hv⟩ := mem_phoneField h
    rw [hv]; exact hp
  · obtain ⟨-, m, -, hm, hv⟩ := mem_messageField h
    rw [hv]; exact hm

theorem splitName_all_space {s : String} (hne : s ≠ "")
    (hws : ∀ c ∈ s.data, isJsSpace c = true) :
    splitName (some s) = ⟨some "", none⟩ := by
  have htrim := jsTrim_empty_of_all_space hws
  have hstep : splitName (some s) =
      (if s = "" then (⟨none, none⟩ : NameParts)
       else
         let parts := jsSplitWs (jsTrim s)
         if parts.length = 1 then ⟨some (parts.headD ""), none⟩
         else ⟨some (jsJoin parts.dropLast), some (parts.getLastD "")⟩) := rfl
  rw [hstep, if_neg hne, htrim]
  rfl

/-- C9: a nonempty all-whitespace name yields firstName as the empty
string rather than the empty object, the truthiness filter then omits
firstName from the lead field map, and no entry of the lead field map ever
carries an empty string value. -/
theorem whitespace_name_never_blank :
    (∀ s : String, s ≠ "" → (∀ c ∈ s.data, isJsSpace c = true) →
      splitName (some s) = ⟨some "", none⟩) ∧
    (∀ (body : HandoffBody) (em s : String),
      body.name = some s → s ≠ "" → (∀ c ∈ s.data, isJsSpace c = true) →
      ∀ v : String, ("firstName", v) ∉ buildLeadFields body em) ∧
    (∀ (body : HandoffBody) (em : String), em ≠ "" →
      ∀ kv ∈ buildLeadFields body em, kv.2 ≠ "") := by
  refine ⟨fun s h1 h2 => splitName_all_space h1 h2, ?_, ?_⟩
  · intro body em s hname hne hws v hmem
    rcases mem_buildLeadFields.mp hmem with h | h | h | h | h | h
    · have hk : "firstName" = "emailAddress" := congrArg Prod.fst h
      exact absurd hk (by decide)
    · obtain ⟨-, h2, h3⟩ := mem_firstNameField h
      rw [hname, splitName_all_space hne hws] at h2
      simp at h2
      exact h3 h2.symm
    · obtain ⟨-, h2, -⟩ := mem_lastNameField h
      rw [hname, splitName_all_space hne hws] at h2
      simp at h2
    · have hk : "firstName" = "companyName" := (mem_companyField h).1
      exact absurd hk (by decide)
    · have hk : "firstName" = "phoneNumber" := (mem_phoneField h).1
      exact absurd hk (by decide)
    · have hk : "firstName" = "description" := (mem_messageField h).1
      exact absurd hk (by decide)
  · exact fun body em hem => buildLeadFields_values_nonempty body em hem

/-- Witness instantiating C9 at a concrete whitespace-only name. -/
theorem whitespace_name_never_blank_witness :
    splitName (some " \t ") = ⟨some "", none⟩ :=
  whitespace_name_never_blank.1 " \t " (by decide) (by decide)

theorem callSharpSpring_calls {env : Env}
    (hA : strFalsy env.sharpspringAccountId = false)
    (hK : strFalsy env.sharpspringSecretKey = false)
    (m : String) (p : CrmParams) (r : String) (o : CrmFetchResult) :
    (callSharpSpring env m p r o).2 = [⟨m, p, r⟩] := by
  cases o <;> simp [callSharpSpring, hA, hK]

theorem buildLeadFields_cons (body : HandoffBody) (em : String) :
    buildLeadFields body em = ("emailAddress", em) ::
      (firstNameField (splitName body.name) ++ lastNameField (splitName body.name) ++
        companyField body ++ phoneField body ++ messageField body) := by
  unfold buildLeadFields
  simp [List.append_assoc]

/-- C1 (amended): with a trimmed nonempty email, the lead payload holds
exactly the non-empty trimmed fields of the input (emailAddress always,
firstName and lastName exactly the truthy parts of splitName, companyName,
phoneNumber and description exactly when the input field trims nonempty,
no other key, no blank value), and the lookup dispatches to updateLeads
with the existing id prepended to exactly this field set, or else to
createLeads with exactly this field set; a string or number id on the
first reported lead is used only when its String rendering is truthy: a
nonempty string id or a numeric id is taken, while an empty-string id is
discarded and falls through to createLeads. -/
theorem syncLead_payload_and_dispatch (env : Env) (net : CrmNet)
    (body : HandoffBody) (e : String)
    (hA : strFalsy env.sharpspringAccountId = false)
    (hK : strFalsy env.sharpspringSecretKey = false)
    (hemail : body.email = some e) (hne : jsTrim e ≠ "") :
    ((buildLeadFields body (jsTrim e)).lookup "emailAddress" = some (jsTrim e)) ∧
    (∀ v : String, ("firstName", v) ∈ buildLeadFields body (jsTrim e) ↔
      ((splitName body.name).firstName = some v ∧ v ≠ "")) ∧
    (∀ v : String, ("lastName", v) ∈ buildLeadFields body (jsTrim e) ↔
      ((splitName body.name).lastName = some v ∧ v ≠ "")) ∧
    (∀ v : String, ("companyName", v) ∈ buildLeadFields body (jsTrim e) ↔
      (∃ c, body.company = some c ∧ jsTrim c ≠ "" ∧ v = jsTrim c)) ∧
    (∀ v : String, ("phoneNumber", v) ∈ buildLeadFields body (jsTrim e) ↔
      (∃ p, body.phone = some p ∧ jsTrim p ≠ "" ∧ v = jsTrim p)) ∧
    (∀ v : String, ("description", v) ∈ buildLeadFields body (jsTrim e) ↔
      (∃ m, body.message = some m ∧ jsTrim m ≠ "" ∧ v = jsTrim m)) ∧
    (∀ kv ∈ buildLeadFields body (jsTrim e),
      kv.1 ∈ ["emailAddress", "firstName", "lastName", "companyName",
        "phoneNumber", "description"]) ∧
    (∀ kv ∈ buildLeadFields body (jsTrim e), kv.2 ≠ "") ∧
    (∀ i : String,
      existingLeadId (callSharpSpring env "getLeads"
        (CrmParams.getLeads (jsTrim e) 1 0) "getLeadByEmail" net.getResp).1 = some i →
      (syncLeadToSharpSpring env net body).2 =
        [⟨"getLeads", CrmParams.getLeads (jsTrim e) 1 0, "getLeadByEmail"⟩,
         ⟨"updateLeads",
          CrmParams.updateLeads [("id", i) :: buildLeadFields body (jsTrim e)],
          "updateLead"⟩]) ∧
    (existingLeadId (callSharpSpring env "getLeads"
        (CrmParams.getLeads (jsTrim e) 1 0) "getLeadByEmail" net.getResp).1 = none →
      (syncLeadToSharpSpring env net body).2 =
        [⟨"getLeads", CrmParams.getLeads (jsTrim e) 1 0, "getLeadByEmail"⟩,
         ⟨"createLeads", CrmParams.createLeads [buildLeadFields body (jsTrim e)],
          "createLead"⟩]) ∧
    (∀ i : String, i ≠ "" →
      existingLeadId (some (JsonVal.obj [("result", JsonVal.obj
        [("lead", JsonVal.arr [JsonVal.obj [("id", JsonVal.str i)]])])])) =
        some i) ∧
    (existingLeadId (some (JsonVal.obj [("result", JsonVal.obj
      [("lead", JsonVal.arr [JsonVal.obj [("id", JsonVal.num 77)]])])])) =
      some "77") ∧
    (existingLeadId (some (JsonVal.obj [("result", JsonVal.obj
      [("lead", JsonVal.arr [JsonVal.obj [("id", JsonVal.str "")]])])])) =
      none) := by
  refine ⟨?_, ?_, ?_, ?_, ?_, ?_, ?_, ?_, ?_, ?_, ?_, ?_, ?_⟩
  · rw [buildLeadFields_cons]
    simp [List.lookup]
  · intro v
    constructor
    · intro hmem
      rcases mem_buildLeadFields.mp hmem with h | h | h | h | h | h
      · have hk : "firstName" = "emailAddress" := congrArg Prod.fst h
        exact absurd hk (by decide)
      · obtain ⟨-, h2, h3⟩ := mem_firstNameField h
        exact ⟨h2.symm ▸ rfl, h3⟩
      · have hk : "firstName" = "lastName" := (mem_lastNameField h).1
        exact absurd hk (by decide)
      · have hk : "firstName" = "companyName" := (mem_companyField h).1
        exact absurd hk (by decide)
      · have hk : "firstName" = "phoneNumber" := (mem_phoneField h).1
        exact absurd hk (by decide)
      · have hk : "firstName" = "description" := (mem_messageField h).1
        exact absurd hk (by decide)
    · intro ⟨h1, h2⟩
      apply mem_buildLeadFields.mpr
      right; left
      rw [firstNameField_eq_of h1 h2]
      simp
  · intro v
    constructor
    · intro hmem
      rcases mem_buildLeadFields.mp hmem with h | h | h | h | h | h
      · have hk : "lastName" = "emailAddress" := congrArg Prod.fst h
        exact absurd hk (by decide)
      · have hk : "lastName" = "firstName" := (mem_firstNameField h).1
        exact absurd hk (by decide)
      · obtain ⟨-, h2, h3⟩ := mem_lastNameField h
        exact ⟨h2.symm ▸ rfl, h3⟩
      · have hk : "lastName" = "companyName" := (mem_companyField h).1
        exact absurd hk (by decide)
      · have hk : "lastName" = "phoneNumber" := (mem_phoneField h).1
        exact absurd hk (by decide)
      · have hk : "lastName" = "description" := (mem_messageField h).1
        exact absurd hk (by decide)
    · intro ⟨h1, h2⟩
      apply mem_buildLeadFields.mpr
      right; right; left
      rw [lastNameField_eq_of h1 h2]
      simp
  · intro v
    constructor
    · intro hmem
      rcases mem_buildLeadFields.mp hmem with h | h | h | h | h | h
      · have hk : "companyName" = "emailAddress" := congrArg Prod.fst h
        exact absurd hk (by decide)
      · have hk : "companyName" = "firstName" := (mem_firstNameField h).1
        exact absurd hk (by decide)
      · have hk : "companyName" = "lastName" := (mem_lastNameField h).1
        exact absurd hk (by decide)
      · obtain ⟨-, c, hc1, hc2, hc3⟩ := mem_companyField h
        exact ⟨c, hc1, hc2, hc3⟩
      · have hk : "companyName" = "phoneNumber" := (mem_phoneField h).1
        exact absurd hk (by decide)
      · have hk : "companyName" = "description" := (mem_messageField h).1
        exact absurd hk (by decide)
    · intro ⟨c, h1, h2, h3⟩
      apply mem_buildLeadFields.mpr
      right; right; right; left
      rw [companyField_eq_of h1 h2, h3]
      simp
  · intro v
    constructor
    · intro hmem
      rcases mem_buildLeadFields.mp hmem with h | h | h | h | h | h
      · have hk : "phoneNumber" = "emailAddress" := congrArg Prod.fst h
        exact absurd hk (by decide)
      · have hk : "phoneNumber" = "firstName" := (mem_firstNameField h).1
        exact absurd hk (by decide)
      · have hk : "phoneNumber" = "lastName" := (mem_lastNameField h).1
        exact absurd hk (by decide)
      · have hk : "phoneNumber" = "companyName" := (mem_companyField h).1
        exact absurd hk (by decide)
      · obtain ⟨-, p, hp1, hp2, hp3⟩ := mem_phoneField h
        exact ⟨p, hp1, hp2, hp3⟩
      · have hk : "phoneNumber" = "description" := (mem_messageField h).1
        exact absurd hk (by decide)
    · intro ⟨p, h1, h2, h3⟩
      apply mem_buildLeadFields.mpr
      right; right; right; right; left
      rw [phoneField_eq_of h1 h2, h3]
      simp
  · intro v
    constructor
    · intro hmem
      rcases mem_buildLeadFields.mp hmem with h | h | h | h | h | h
      · have hk : "description" = "emailAddress" := congrArg Prod.fst h
        exact absurd hk (by decide)
      · have hk : "description" = "firstName" := (mem_firstNameField h).1
        exact absurd hk (by decide)
      · have hk : "description" = "lastName" := (mem_lastNameField h).1
        exact absurd hk (by decide)
      · have hk : "description" = "companyName" := (mem_companyField h).1
        exact absurd hk (by decide)
      · have hk : "description" = "phoneNumber" := (mem_phoneField h).1
        exact absurd hk (by decide)
      · obtain ⟨-, m, hm1, hm2, hm3⟩ := mem_messageField h
        exact ⟨m, hm1, hm2, hm3⟩
    · intro ⟨m, h1, h2, h3⟩
      apply mem_buildLeadFields.mpr
      right; right; right; right; right
      rw [messageField_eq_of h1 h2, h3]
      simp
  · intro kv hkv
    rcases mem_buildLeadFields.mp hkv with h | h | h | h | h | h
    · rw [h]; simp
    · rw [(mem_firstNameField h).1]; simp
    · rw [(mem_lastNameField h).1]; simp
    · rw [(mem_companyField h).1]; simp
    · rw [(mem_phoneField h).1]; simp
    · rw [(mem_messageField h).1]; simp
  · exact buildLeadFields_values_nonempty body (jsTrim e) hne
  · intro i hid
    simp only [syncLeadToSharpSpring, hemail, if_neg hne, hid]
    rw [callSharpSpring_calls hA hK, callSharpSpring_calls hA hK]
    rfl
  · intro hid
    simp only [syncLeadToSharpSpring, hemail, if_neg hne, hid]
    rw [callSharpSpring_calls hA hK, callSharpSpring_calls hA hK]
    rfl
  · intro i hi
    simp [existingLeadId, jsOptChain, JsonVal.getField, List.lookup, hi]
  · decide
  · decide

/-- C1 counterexample: the getLeads lookup reports an existing lead whose
id is the empty string - a string-typed id - yet the code discards it as
falsy and invokes createLeads, not updateLeads with that id. -/
theorem empty_string_id_counterexample :
    (syncLeadToSharpSpring ⟨some "https://hooks.example/w", some "acct", some "key"⟩
      ⟨CrmFetchResult.parsed (JsonVal.obj [("result", JsonVal.obj
        [("lead", JsonVal.arr [JsonVal.obj [("id", JsonVal.str "")]])])]),
       CrmFetchResult.netError, CrmFetchResult.netError⟩
      ⟨none, none, some "a@b.c", none, none, none, none⟩).2 =
      [⟨"getLeads", CrmParams.getLeads "a@b.c" 1 0, "getLeadByEmail"⟩,
       ⟨"createLeads", CrmParams.createLeads [[("emailAddress", "a@b.c")]],
        "createLead"⟩] ∧
    ((syncLeadToSharpSpring ⟨some "https://hooks.example/w", some "acct", some "key"⟩
      ⟨CrmFetchResult.parsed (JsonVal.obj [("result", JsonVal.obj
        [("lead", JsonVal.arr [JsonVal.obj [("id", JsonVal.str "")]])])]),
       CrmFetchResult.netError, CrmFetchResult.netError⟩
      ⟨none, none, some "a@b.c", none, none, none, none⟩).2.map
        CrmCall.method = ["getLeads", "createLeads"]) := ⟨by decide, by decide⟩

/-- Witness instantiating C1 at a concrete request body, environment and
network. -/
theorem syncLead_payload_and_dispatch_witness :
    (buildLeadFields
      ⟨none, some "Ada Lovelace", some " ada@example.com ", none, some " ACME ", none, none⟩
      (jsTrim " ada@example.com ")).lookup "emailAddress" =
      some (jsTrim " ada@example.com ") :=
  (syncLead_payload_and_dispatch
    ⟨some "https://hooks.example/w", some "acct", some "key"⟩
    ⟨CrmFetchResult.netError, CrmFetchResult.netError, CrmFetchResult.netError⟩
    ⟨none, some "Ada Lovelace", some " ada@example.com ", none, some " ACME ", none, none⟩
    " ada@example.com " (by decide) (by decide) rfl (by decide)).1

theorem POST_ok_form (env : Env) (inp : PostInput) (body : HandoffBody)
    (sr : SlackWebhookResult)
    (hw : strFalsy env.slackWebhookUrl = false)
    (hb : inp.parsedBody = some body) (hs : inp.slackFetch = some sr) :
    POST env inp = ⟨200, RespBody.okBody (generateTicketId inp.randString)
      (slackTsFrom sr.jsonValue)
      ((syncLeadToSharpSpring env inp.crmNet body).1), []⟩ := by
  simp only [POST, hb, hw, Bool.false_eq_true, if_false, hs]

theorem base36_toUpper_upperAlnum :
    ∀ c ∈ base36Chars, isUpperAlnum (Char.toUpper c) = true := by decide

theorem base36_toUpper_inj : ∀ c1 ∈ base36Chars, ∀ c2 ∈ base36Chars,
    Char.toUpper c1 = Char.toUpper c2 → c1 = c2 := by decide

theorem map_toUpper_inj : ∀ (l1 l2 : List Char),
    (∀ c ∈ l1, c ∈ base36Chars) → (∀ c ∈ l2, c ∈ base36Chars) →
    l1.map Char.toUpper = l2.map Char.toUpper → l1 = l2 := by
  intro l1
  induction l1 with
  | nil =>
    intro l2 _ _ h
    cases l2 with
    | nil => rfl
    | cons b bs => simp at h
  | cons a as ih =>
    intro l2 h1 h2 h
    cases l2 with
    | nil => simp at h
    | cons b bs =>
      simp only [List.map_cons, List.cons.injEq] at h
      have hab : a = b := base36_toUpper_inj a (h1 a (by simp)) b (h2 b (by simp)) h.1
      rw [hab, ih bs (fun c hc => h1 c (by simp [hc])) (fun c hc => h2 c (by simp [hc])) h.2]

/-- C2 (amended): with a configured webhook URL, a parsed body and a
delivered webhook fetch, the handler answers 200 and the ticketId is the
uppercased first eight base-36 fractional digits of the random draw: an
uppercase-alphanumeric string of length the minimum of eight and the digit
count, hence of length exactly eight whenever the draw has at least eight
digits, and draws differing in their first eight digits give distinct
ticket ids. -/
theorem post_ticket_amended :
    (∀ (env : Env) (inp : PostInput) (body : HandoffBody) (ds : List Char),
      strFalsy env.slackWebhookUrl = false →
      inp.parsedBody = some body →
      (∃ sr, inp.slackFetch = some sr) →
      inp.randString.data = '0' :: '.' :: ds →
      (∀ c ∈ ds, c ∈ base36Chars) →
      (POST env inp).status = 200 ∧
      respTicketId (POST env inp) = some (String.mk ((ds.take 8).map Char.toUpper)) ∧
      (String.mk ((ds.take 8).map Char.toUpper)).length = min 8 ds.length ∧
      (8 ≤ ds.length → (String.mk ((ds.take 8).map Char.toUpper)).length = 8) ∧
      (∀ c ∈ (String.mk ((ds.take 8).map Char.toUpper)).data, isUpperAlnum c = true)) ∧
    (∀ ds1 ds2 : List Char,
      (∀ c ∈ ds1, c ∈ base36Chars) → (∀ c ∈ ds2, c ∈ base36Chars) →
      String.mk ((ds1.take 8).map Char.toUpper) =
        String.mk ((ds2.take 8).map Char.toUpper) →
      ds1.take 8 = ds2.take 8) := by
  constructor
  · intro env inp body ds hw hb hsf hr hds
    obtain ⟨sr, hs⟩ := hsf
    have hpost := POST_ok_form env inp body sr hw hb hs
    have hticket : generateTicketId inp.randString =
        String.mk ((ds.take 8).map Char.toUpper) := by
      unfold generateTicketId
      rw [hr]
      rfl
    refine ⟨by rw [hpost], ?_, ?_, ?_, ?_⟩
    · rw [hpost, ← hticket]
      rfl
    · show ((ds.take 8).map Char.toUpper).length = min 8 ds.length
      rw [List.length_map, List.length_take]
    · intro hlen
      show ((ds.take 8).map Char.toUpper).length = 8
      rw [List.length_map, List.length_take]
      omega
    · intro c hc
      obtain ⟨x, hx, rfl⟩ := List.mem_map.mp hc
      exact base36_toUpper_upperAlnum x (hds x (List.take_subset 8 ds hx))
  · intro ds1 ds2 h1 h2 h
    have hdata : (ds1.take 8).map Char.toUpper = (ds2.take 8).map Char.toUpper :=
      congrArg String.data h
    exact map_toUpper_inj _ _
      (fun c hc => h1 c (List.take_subset 8 ds1 hc))
      (fun c hc => h2 c (List.take_subset 8 ds2 hc)) hdata

/-- C2 counterexample: Math.random can return one half, whose base-36
rendering is the three-character string zero dot i; the handler still
answers 200 but the ticket id is the single letter I, not an 8-character
string. -/
theorem post_ticket_counterexample :
    POST ⟨some "https://hooks.example/w", none, none⟩
      ⟨some ⟨none, none, none, none, none, none, none⟩, "0.i", some ⟨none⟩,
        ⟨CrmFetchResult.netError, CrmFetchResult.netError, CrmFetchResult.netError⟩⟩ =
      ⟨200, RespBody.okBody "I" none false, []⟩ ∧
    ("I".length = 8 → False) := ⟨by decide, by decide⟩

/-- Witness instantiating the amended C2 at a concrete eight-digit draw. -/
theorem post_ticket_amended_witness :
    (POST ⟨some "https://hooks.example/w", none, none⟩
      ⟨some ⟨none, none, none, none, none, none, none⟩, "0.k2f0abz9", some ⟨none⟩,
        ⟨CrmFetchResult.netError, CrmFetchResult.netError, CrmFetchResult.netError⟩⟩).status =
      200 :=
  (post_ticket_amended.1
    ⟨some "https://hooks.example/w", none, none⟩
    ⟨some ⟨none, none, none, none, none, none, none⟩, "0.k2f0abz9", some ⟨none⟩,
      ⟨CrmFetchResult.netError, CrmFetchResult.netError, CrmFetchResult.netError⟩⟩
    ⟨none, none, none, none, none, none, none⟩
    ['k', '2', 'f', '0', 'a', 'b', 'z', '9']
    (by decide) rfl ⟨⟨none⟩, rfl⟩ rfl (by decide)).1

/-- C3 counterexample: with the webhook URL unset the handler answers the
dedicated 500 error, but the response carries no CORS header, against the
claim that CORS headers are still present. -/
theorem missing_webhook_no_cors_counterexample :
    POST ⟨none, none, none⟩
      ⟨some ⟨none, none, none, none, none, none, none⟩, "0.i", none,
        ⟨CrmFetchResult.netError, CrmFetchResult.netError, CrmFetchResult.netError⟩⟩ =
      ⟨500, RespBody.errBody "Missing SLACK_WEBHOOK_URL env variable", []⟩ ∧
    hasCorsHeaders (POST ⟨none, none, none⟩
      ⟨some ⟨none, none, none, none, none, none, none⟩, "0.i", none,
        ⟨CrmFetchResult.netError, CrmFetchResult.netError, CrmFetchResult.netError⟩⟩) =
      false := ⟨by decide, by decide⟩

/-- C3 (amended): with a falsy webhook URL and a parsed request body the
handler returns 500 with exactly the missing-variable error body; no CORS
header is attached to it, nor to any other response of this handler. -/
theorem missing_webhook_amended :
    (∀ (env : Env) (inp : PostInput) (body : HandoffBody),
      inp.parsedBody = some body → strFalsy env.slackWebhookUrl = true →
      POST env inp =
        ⟨500, RespBody.errBody "Missing SLACK_WEBHOOK_URL env variable", []⟩) ∧
    (∀ (env : Env) (inp : PostInput), hasCorsHeaders (POST env inp) = false) := by
  constructor
  · intro env inp body hb hw
    simp only [POST, hb, hw, if_true]
  · intro env inp
    have hh : (POST env inp).headers = [] := by
      unfold POST
      split
      · rfl
      · split
        · rfl
        · split
          · rfl
          · rfl
    simp [hasCorsHeaders, hh]

/-- Witness instantiating the amended C3 at an empty-string webhook URL. -/
theorem missing_webhook_amended_witness :
    POST ⟨some "", none, none⟩
      ⟨some ⟨none, none, none, none, none, none, none⟩, "0.xyz", none,
        ⟨CrmFetchResult.netError, CrmFetchResult.netError, CrmFetchResult.netError⟩⟩ =
      ⟨500, RespBody.errBody "Missing SLACK_WEBHOOK_URL env variable", []⟩ :=
  missing_webhook_amended.1 ⟨some "", none, none⟩
    ⟨some ⟨none, none, none, none, none, none, none⟩, "0.xyz", none,
      ⟨CrmFetchResult.netError, CrmFetchResult.netError, CrmFetchResult.netError⟩⟩
    ⟨none, none, none, none, none, none, none⟩ rfl rfl

/-- C4: whatever the CRM network produced - rejected fetches, empty
bodies, parse failures, or any error payload - the handler answers 200
with the ok shape, the CRM outcome reduced to the crmSynced boolean,
provided the body parsed, the webhook URL is set and webhook delivery
succeeded. -/
theorem crm_failures_nonfatal (env : Env) (inp : PostInput) (body : HandoffBody)
    (sr : SlackWebhookResult)
    (hw : strFalsy env.slackWebhookUrl = false)
    (hb : inp.parsedBody = some body) (hs : inp.slackFetch = some sr) :
    (POST env inp).status = 200 ∧
    POST env inp = ⟨200, RespBody.okBody (generateTicketId inp.randString)
      (slackTsFrom sr.jsonValue)
      ((syncLeadToSharpSpring env inp.crmNet body).1), []⟩ ∧
    respCrmSynced (POST env inp) =
      some ((syncLeadToSharpSpring env inp.crmNet body).1) := by
  have h := POST_ok_form env inp body sr hw hb hs
  exact ⟨by rw [h], h, by rw [h]; rfl⟩

/-- Witness instantiating C4 at a CRM network where every fetch fails. -/
theorem crm_failures_nonfatal_witness :
    (POST ⟨some "https://hooks.example/w", some "acct", some "key"⟩
      ⟨some ⟨none, none, some "a@b.c", none, none, none, none⟩, "0.abcd1234",
        some ⟨none⟩,
        ⟨CrmFetchResult.parseError, CrmFetchResult.netError,
          CrmFetchResult.emptyBody⟩⟩).status = 200 :=
  (crm_failures_nonfatal ⟨some "https://hooks.example/w", some "acct", some "key"⟩
    ⟨some ⟨none, none, some "a@b.c", none, none, none, none⟩, "0.abcd1234",
      some ⟨none⟩,
      ⟨CrmFetchResult.parseError, CrmFetchResult.netError, CrmFetchResult.emptyBody⟩⟩
    ⟨none, none, some "a@b.c", none, none, none, none⟩ ⟨none⟩
    (by decide) rfl rfl).1

/-- C10: with either CRM credential falsy, callSharpSpring yields null
without issuing any outbound request, the sync reports false with an empty
request trace, and the handler still answers 200 with ok true and
crmSynced false. -/
theorem missing_crm_creds (env : Env) (inp : PostInput) (body : HandoffBody)
    (sr : SlackWebhookResult)
    (hcred : strFalsy env.sharpspringAccountId = true ∨
      strFalsy env.sharpspringSecretKey = true)
    (hw : strFalsy env.slackWebhookUrl = false)
    (hb : inp.parsedBody = some body) (hs : inp.slackFetch = some sr) :
    (∀ (m : String) (p : CrmParams) (r : String) (o : CrmFetchResult),
      callSharpSpring env m p r o = (none, [])) ∧
    syncLeadToSharpSpring env inp.crmNet body = (false, []) ∧
    POST env inp = ⟨200, RespBody.okBody (generateTicketId inp.randString)
      (slackTsFrom sr.jsonValue) false, []⟩ := by
  have hcall : ∀ (m : String) (p : CrmParams) (r : String) (o : CrmFetchResult),
      callSharpSpring env m p r o = (none, []) := by
    intro m p r o
    rcases hcred with h | h
    · simp [callSharpSpring, h]
    · simp [callSharpSpring, h]
  have hsync : syncLeadToSharpSpring env inp.crmNet body = (false, []) := by
    unfold syncLeadToSharpSpring
    cases body.email with
    | none => rfl
    | some e0 =>
      by_cases he : jsTrim e0 = ""
      · simp [he]
      · simp only [he, if_false, hcall]
        rfl
  refine ⟨hcall, hsync, ?_⟩
  rw [POST_ok_form env inp body sr hw hb hs,
    show (syncLeadToSharpSpring env inp.crmNet body).1 = false from by rw [hsync]]

/-- Witness instantiating C10 at a concrete environment missing the
secret key. -/
theorem missing_crm_creds_witness :
    syncLeadToSharpSpring ⟨some "https://hooks.example/w", some "acct", none⟩
      ⟨CrmFetchResult.parsed (JsonVal.obj []), CrmFetchResult.netError,
        CrmFetchResult.netError⟩
      ⟨none, none, some "a@b.c", none, none, none, none⟩ = (false, []) :=
  (missing_crm_creds ⟨some "https://hooks.example/w", some "acct", none⟩
    ⟨some ⟨none, none, some "a@b.c", none, none, none, none⟩, "0.abcd1234",
      some ⟨none⟩,
      ⟨CrmFetchResult.parsed (JsonVal.obj []), CrmFetchResult.netError,
        CrmFetchResult.netError⟩⟩
    ⟨none, none, some "a@b.c", none, none, none, none⟩ ⟨none⟩
    (Or.inr rfl) (by decide) rfl rfl).2.1

/-- C8 counterexample: a webhook response whose ts field is a number
yields slackTs null, though the claim requires a string-or-number field to
be surfaced as the timestamp. -/
theorem slackts_numeric_counterexample :
    respSlackTs (POST ⟨some "https://hooks.example/w", none, none⟩
      ⟨some ⟨none, none, none, none, none, none, none⟩, "0.i",
        some ⟨some (JsonVal.obj [("ts", JsonVal.num 1699999)])⟩,
        ⟨CrmFetchResult.netError, CrmFetchResult.netError,
          CrmFetchResult.netError⟩⟩) = none ∧
    (JsonVal.obj [("ts", JsonVal.num 1699999)]).getField "ts" =
      some (JsonVal.num 1699999) := ⟨by decide, rfl⟩

/-- C8 (amended): an empty or unparseable webhook response body never
fails the handler, which still answers 200 with slackTs null; slackTs
equals the response ts field exactly when that field is present with
string type, and is null for every other shape, numbers included. -/
theorem slackts_amended :
    (∀ (env : Env) (inp : PostInput) (body : HandoffBody),
      strFalsy env.slackWebhookUrl = false → inp.parsedBody = some body →
      inp.slackFetch = some ⟨none⟩ →
      (POST env inp).status = 200 ∧ respSlackTs (POST env inp) = none) ∧
    (∀ (j : JsonVal) (s : String), jsTruthy j = true →
      j.getField "ts" = some (JsonVal.str s) → slackTsFrom (some j) = some s) ∧
    (∀ (j v : JsonVal), j.getField "ts" = some v → (∀ s, v ≠ JsonVal.str s) →
      slackTsFrom (some j) = none) ∧
    slackTsFrom none = none := by
  refine ⟨?_, ?_, ?_, rfl⟩
  · intro env inp body hw hb hs
    have h := POST_ok_form env inp body ⟨none⟩ hw hb hs
    exact ⟨by rw [h], by rw [h]; rfl⟩
  · intro j s htr hts
    simp [slackTsFrom, htr, hts]
  · intro j v hts hvs
    simp only [slackTsFrom, hts]
    cases htr : jsTruthy j
    · simp
    · simp only [if_true]
      cases v with
      | str s => exact absurd rfl (hvs s)
      | null => rfl
      | bool b => rfl
      | num n => rfl
      | arr xs => rfl
      | obj fs => rfl

/-- Witness instantiating the amended C8 at a rejected webhook JSON
parse. -/
theorem slackts_amended_witness :
    respSlackTs (POST ⟨some "https://hooks.example/w", none, none⟩
      ⟨some ⟨none, none, none, none, none, none, none⟩, "0.q8r2s5t1",
        some ⟨none⟩,
        ⟨CrmFetchResult.netError, CrmFetchResult.netError,
          CrmFetchResult.netError⟩⟩) = none :=
  (slackts_amended.1 ⟨some "https://hooks.example/w", none, none⟩
    ⟨some ⟨none, none, none, none, none, none, none⟩, "0.q8r2s5t1",
      some ⟨none⟩,
      ⟨CrmFetchResult.netError, CrmFetchResult.netError, CrmFetchResult.netError⟩⟩
    ⟨none, none, none, none, none, none, none⟩ (by decide) rfl rfl).2

/-- C5: extractErrorDetail searches the payload in the documented
precedence order and returns the first match - the two general clauses
cover the top-level error alternatives, the concrete payloads each carry
every later alternative and still select the earlier one - and a non-ok
session response carrying an error object with a message throws exactly
that message. -/
theorem extract_error_detail_precedence :
    (∀ (fs : List (String × JsonVal)) (f s : String),
      fs.lookup "error" = some (JsonVal.str s) →
      extractErrorDetail (some (JsonVal.obj fs)) f = s) ∧
    (∀ (fs es : List (String × JsonVal)) (f m : String),
      fs.lookup "error" = some (JsonVal.obj es) →
      es.lookup "message" = some (JsonVal.str m) →
      extractErrorDetail (some (JsonVal.obj fs)) f = m) ∧
    (extractErrorDetail (some (JsonVal.obj
      [("error", JsonVal.str "E"), ("details", JsonVal.str "D"),
       ("message", JsonVal.str "M")])) "FB" = "E") ∧
    (extractErrorDetail (some (JsonVal.obj
      [("error", JsonVal.obj [("message", JsonVal.str "EM")]),
       ("details", JsonVal.str "D"), ("message", JsonVal.str "M")])) "FB" = "EM") ∧
    (extractErrorDetail (some (JsonVal.obj
      [("details", JsonVal.str "D"), ("message", JsonVal.str "M")])) "FB" = "D") ∧
    (extractErrorDetail (some (JsonVal.obj
      [("details", JsonVal.obj [("error", JsonVal.str "DE")]),
       ("message", JsonVal.str "M")])) "FB" = "DE") ∧
    (extractErrorDetail (some (JsonVal.obj
      [("details", JsonVal.obj
        [("error", JsonVal.obj [("message", JsonVal.str "DEM")])]),
       ("message", JsonVal.str "M")])) "FB" = "DEM") ∧
    (extractErrorDetail (some (JsonVal.obj [("message", JsonVal.str "M")])) "FB" =
      "M") ∧
    (extractErrorDetail (some (JsonVal.obj [])) "FB" = "FB") ∧
    (getClientSecret true "TypeError" (SessionFetch.resp ⟨false, "Bad Request",
      some (JsonVal.obj
        [("error", JsonVal.obj [("message", JsonVal.str "bad workflow")])])⟩) =
      Except.error "bad workflow") := by
  refine ⟨?_, ?_, rfl, rfl, rfl, rfl, rfl, rfl, rfl, rfl⟩
  · intro fs f s h
    simp [extractErrorDetail, jsTruthy, JsonVal.getField, errorFieldDetail, h]
  · intro fs es f m h1 h2
    simp [extractErrorDetail, jsTruthy, JsonVal.getField, errorFieldDetail,
      objStrMessage, h1, h2]

/-- Witness instantiating the general clause of C5 at a concrete
payload. -/
theorem extract_error_detail_precedence_witness :
    extractErrorDetail (some (JsonVal.obj [("error", JsonVal.str "boom")])) "FB" =
      "boom" :=
  extract_error_detail_precedence.1 [("error", JsonVal.str "boom")] "FB" "boom" rfl

/-- C6: a second record_fact with the same id in one thread forwards
nothing, a thread change clears the dedup set so the same id forwards
again, every invocation reports success (missing ids and duplicates
included), and the forwarded text is whitespace-collapsed and trimmed. -/
theorem record_fact_dedup :
    (∀ (st : PanelState) (id t1 t2 : String), id ≠ "" →
      (handleRecordFact (handleRecordFact st (some id) (some t1)).state
        (some id) (some t2)).forwarded = none) ∧
    (∀ (st : PanelState) (fid ft : Option String),
      (handleRecordFact st fid ft).success = true) ∧
    (∀ (st : PanelState) (id t : String), id ≠ "" →
      st.processedFacts.contains id = false →
      (handleRecordFact st (some id) (some t)).forwarded =
        some ⟨"save", id, jsTrim (jsCollapseWs t)⟩) ∧
    (∀ (st : PanelState) (id t : String), id ≠ "" →
      (handleRecordFact (onThreadChange st) (some id) (some t)).forwarded =
        some ⟨"save", id, jsTrim (jsCollapseWs t)⟩) := by
  refine ⟨?_, ?_, ?_, ?_⟩
  · intro st id t1 t2 hid
    by_cases hc : id ∈ st.processedFacts
    · simp [handleRecordFact, hid, hc]
    · simp [handleRecordFact, hid, hc]
  · intro st fid ft
    unfold handleRecordFact
    dsimp only
    repeat' split
    all_goals rfl
  · intro st id t hid hc
    have hc1 : id ∉ st.processedFacts := by simpa using hc
    by_cases ht : t = ""
    · subst ht
      simp [handleRecordFact, hid, hc1]
    · simp [handleRecordFact, hid, hc1, ht]
  · intro st id t hid
    by_cases ht : t = ""
    · subst ht
      simp [handleRecordFact, onThreadChange, hid]
    · simp [handleRecordFact, onThreadChange, hid, ht]

/-- Witness instantiating C6 at a duplicate fact id. -/
theorem record_fact_dedup_witness :
    (handleRecordFact (handleRecordFact ⟨[]⟩ (some "f1") (some " a  b ")).state
      (some "f1") (some " a  b ")).forwarded = none :=
  record_fact_dedup.1 ⟨[]⟩ "f1" " a  b " " a  b " (by decide)
